import Mathlib

/-!
Verification model of the `vimkeys_input` modal editing engine.

The engine (src/vimkeys_input) is embedded shallowly: each Python method
becomes a Lean function on an explicit `EditorState`.  Lines are lists of
characters, the buffer is a list of lines, and key events are the string
names the dispatcher matches on ("d", "escape", "dollar", ...).

The host text widget (Textual's TextArea) is out of scope for the engine
and is specified in the repository's spec only through the interface the
engine needs (line access, cursor, insertion, deletion, selection).  The
primitives `action_*`, `insertText`, `replaceRange`, `selected_text` and
the key-to-character map are therefore modelled from the spec, as flagged
in their doc comments; everything else is translated from the source.
-/

namespace VimKeys

/-- Vim editing modes, from vim_modes.py `VimMode`. -/
inductive VimMode where
  | INSERT
  | COMMAND
  | VISUAL
  | VISUAL_LINE
  deriving DecidableEq, Repr

/-- A (row, column) position, 0-indexed, column counted in characters. -/
abbrev Pos := Nat × Nat

/-- The engine-visible state: the host buffer (lines, cursor, selection)
together with the plain attributes `VimTextArea.__init__` installs on the
widget and the fields of `CountHandler` and `OperatorPendingState`. -/
structure EditorState where
  lines : List (List Char)
  cursor : Pos
  selStart : Pos
  selEnd : Pos
  yank_register : List Char
  vim_mode : VimMode
  visual_start : Option Pos
  pending_command : Option String
  last_f_search : Option (String × String)
  last_search_word : Option (List Char)
  op_operator : Option String
  op_count : Nat
  op_motion_count : Nat
  count_count : Nat
  count_str : List Char
  text_object_state : Option String
  deriving DecidableEq, Repr

/-- `document.line_count` of the host buffer. -/
def lineCount (s : EditorState) : Nat := s.lines.length

/-- `get_line(row)` of the host buffer (missing rows read as empty). -/
def getLine (s : EditorState) (row : Nat) : List Char := s.lines.getD row []

/-- Decimal value of a digit string, as Python `int` on an all-digit string. -/
def digitsVal (ds : List Char) : Nat :=
  ds.foldl (fun acc c => acc * 10 + (c.toNat - '0'.toNat)) 0

/-- Python `key.isdigit()` for a key-event string. -/
def keyIsDigit (key : String) : Bool :=
  key ≠ "" && key.toList.all Char.isDigit

/-- Split a text on newline characters; `n` newlines give `n + 1` segments,
mirroring how the host buffer stores inserted text line by line. -/
def splitLines : List Char → List (List Char)
  | [] => [[]]
  | c :: rest =>
    let r := splitLines rest
    if c = '\n' then [] :: r
    else (c :: r.headD []) :: r.tail

/-- Drop trailing newline characters, as Python `text.rstrip("\n")`. -/
def rstripNL (t : List Char) : List Char :=
  (t.reverse.dropWhile (fun c => c = '\n')).reverse

/-- Whether a register text ends with a newline, `text.endswith("\n")`. -/
def endsWithNL (t : List Char) : Bool :=
  t.getLast? = some '\n'

/-- Python `line.find(pat, start)`: least index `i ≥ start` where `pat`
occurs, as an `Option` instead of `-1`. -/
def findFrom (line pat : List Char) (start : Nat) : Option Nat :=
  ((List.range (line.length + 1)).filter
    (fun i => decide (start ≤ i) && pat.isPrefixOf (line.drop i))).head?

/-- Python `line.rfind(pat, 0, stop)`: greatest index `i` with an occurrence
of `pat` contained in `line[0:stop]`, as an `Option` instead of `-1`. -/
def rfindBefore (line pat : List Char) (stop : Nat) : Option Nat :=
  ((List.range (line.length + 1)).filter
    (fun i => decide (i + pat.length ≤ stop) && pat.isPrefixOf (line.drop i))).getLast?

/-- Modelled from the spec: `setCursor(Position)` of the host buffer
interface (section 6); it repositions the cursor and touches nothing else. -/
def setCursor (s : EditorState) (p : Pos) : EditorState :=
  { s with cursor := p }

/-- Modelled from the spec: the host `action_cursor_left`, the `left` motion
of section 4.4 - single step, clamped, never wrapping to another line. -/
def action_cursor_left (s : EditorState) : EditorState :=
  { s with cursor := (s.cursor.1, s.cursor.2 - 1) }

/-- Modelled from the spec: the host `action_cursor_right`, the `right`
motion of section 4.4 - single step, clamped at the line end (column may
rest at line length, one past the last character), never wrapping. -/
def action_cursor_right (s : EditorState) : EditorState :=
  { s with cursor := (s.cursor.1, min (s.cursor.2 + 1) (getLine s s.cursor.1).length) }

/-- Modelled from the spec: the host `action_cursor_up` (`up` motion of
section 4.4), clamped at the first row, column clamped to the new line. -/
def action_cursor_up (s : EditorState) : EditorState :=
  if s.cursor.1 = 0 then s
  else { s with cursor := (s.cursor.1 - 1, min s.cursor.2 (getLine s (s.cursor.1 - 1)).length) }

/-- Modelled from the spec: the host `action_cursor_down` (`down` motion of
section 4.4), clamped at the last row, column clamped to the new line. -/
def action_cursor_down (s : EditorState) : EditorState :=
  if s.cursor.1 + 1 < lineCount s then
    { s with cursor := (s.cursor.1 + 1, min s.cursor.2 (getLine s (s.cursor.1 + 1)).length) }
  else s

/-- Modelled from the spec: the host `action_cursor_line_start`
(`lineStart` of section 4.4, column 0). -/
def action_cursor_line_start (s : EditorState) : EditorState :=
  { s with cursor := (s.cursor.1, 0) }

/-- Modelled from the spec: the host `action_cursor_line_end` (`lineEnd` of
section 4.4, column = line length, one past the last character). -/
def action_cursor_line_end (s : EditorState) : EditorState :=
  { s with cursor := (s.cursor.1, (getLine s s.cursor.1).length) }

/-- Modelled from the spec: the host `action_delete_right`, a
`deleteRange(cursor, cursor+1)` on the half-open interface of section 6;
deleting at the end of a line joins the next line, at the document end it
is the silent no-op of section 7. -/
def action_delete_right (s : EditorState) : EditorState :=
  let r := s.cursor.1
  let c := s.cursor.2
  let line := getLine s r
  if c < line.length then
    { s with lines := s.lines.set r (line.take c ++ line.drop (c + 1)) }
  else if r + 1 < lineCount s then
    { s with lines := s.lines.take r ++ [line ++ getLine s (r + 1)] ++ s.lines.drop (r + 2) }
  else s

/-- Modelled from the spec: the host `action_delete_left`, the mirror of
`action_delete_right` on the character before the cursor. -/
def action_delete_left (s : EditorState) : EditorState :=
  let r := s.cursor.1
  let c := s.cursor.2
  let line := getLine s r
  if 0 < c then
    { s with lines := s.lines.set r (line.take (c - 1) ++ line.drop c),
             cursor := (r, c - 1) }
  else if 0 < r then
    { s with lines := s.lines.take (r - 1) ++ [getLine s (r - 1) ++ line] ++ s.lines.drop (r + 1),
             cursor := (r - 1, (getLine s (r - 1)).length) }
  else s

/-- Modelled from the spec: the host `action_delete_line`; removes the
cursor's line (a buffer always keeps at least one, possibly empty, line)
and leaves the cursor at column 0 of the clamped row. -/
def action_delete_line (s : EditorState) : EditorState :=
  let r := s.cursor.1
  let ls := s.lines.eraseIdx r
  let ls' := if ls = [] then [[]] else ls
  { s with lines := ls', cursor := (min r (ls'.length - 1), 0) }

/-- Modelled from the spec: the host `action_delete_to_end_of_line`. -/
def action_delete_to_end_of_line (s : EditorState) : EditorState :=
  { s with lines := s.lines.set s.cursor.1 ((getLine s s.cursor.1).take s.cursor.2) }

/-- Modelled from the spec: the host `action_delete_to_start_of_line`. -/
def action_delete_to_start_of_line (s : EditorState) : EditorState :=
  { s with lines := s.lines.set s.cursor.1 ((getLine s s.cursor.1).drop s.cursor.2),
           cursor := (s.cursor.1, 0) }

/-- Modelled from the spec: the host `insert(text)` = `insertAtCursor` of
section 6.  The text is split on newlines, spliced in at the cursor, and
the cursor lands at the end of the inserted text. -/
def insertText (s : EditorState) (t : List Char) : EditorState :=
  let r := s.cursor.1
  let c := s.cursor.2
  let line := getLine s r
  let pre := line.take c
  let post := line.drop c
  match splitLines t with
  | [] => s
  | [seg] =>
    { s with lines := s.lines.set r (pre ++ seg ++ post),
             cursor := (r, c + seg.length) }
  | first :: rest =>
    let lastSeg := rest.getLastD []
    let body := rest.dropLast
    { s with
      lines := s.lines.take r ++ ((pre ++ first) :: (body ++ [lastSeg ++ post]))
                ++ s.lines.drop (r + 1),
      cursor := (r + rest.length, lastSeg.length) }

/-- Row-major document order on positions. -/
def posLe (a b : Pos) : Bool :=
  a.1 < b.1 || (a.1 = b.1 && a.2 ≤ b.2)

/-- Modelled from the spec: the host selection, normalized to document
order (the widget accepts either endpoint order). -/
def orderedSel (s : EditorState) : Pos × Pos :=
  if posLe s.selStart s.selEnd then (s.selStart, s.selEnd) else (s.selEnd, s.selStart)

/-- Modelled from the spec: the host `selected_text` - the text of the
half-open selection range, rows joined by newlines. -/
def selected_text (s : EditorState) : List Char :=
  let (a, b) := orderedSel s
  if a.1 = b.1 then ((getLine s a.1).drop a.2).take (b.2 - a.2)
  else
    (getLine s a.1).drop a.2 ++ ['\n']
      ++ (List.range (b.1 - a.1 - 1)).flatMap (fun i => getLine s (a.1 + 1 + i) ++ ['\n'])
      ++ (getLine s b.1).take b.2

/-- Modelled from the spec: the host `replace(text, start, end)` =
`replaceRange` of section 6 - remove the half-open range, then insert the
replacement text at its start. -/
def replaceRange (s : EditorState) (t : List Char) (a b : Pos) : EditorState :=
  let (a, b) := if posLe a b then (a, b) else (b, a)
  let s' :=
    if a.1 = b.1 then
      { s with lines := s.lines.set a.1 ((getLine s a.1).take a.2 ++ (getLine s a.1).drop b.2),
               cursor := a }
    else
      { s with lines := s.lines.take a.1
                ++ [(getLine s a.1).take a.2 ++ (getLine s b.1).drop b.2]
                ++ s.lines.drop (b.1 + 1),
               cursor := a }
  insertText s' t

/-- Modelled from the spec: the host `action_cursor_word_right`, the
`wordForward` motion of section 4.4 - jump to the next word-start boundary
(a word being a maximal alphanumeric run), clamped at the line end. -/
def action_cursor_word_right (s : EditorState) : EditorState :=
  let r := s.cursor.1
  let c := s.cursor.2
  let line := getLine s r
  match ((List.range line.length).filter
      (fun i => decide (c < i) && (line.getD i ' ').isAlphanum
        && !(line.getD (i - 1) ' ').isAlphanum)).head? with
  | some i => { s with cursor := (r, i) }
  | none => { s with cursor := (r, line.length) }

/-- Modelled from the spec: the host `action_cursor_word_left`, the
`wordBackward` motion of section 4.4 - jump to the previous word-start
boundary, clamped at column 0. -/
def action_cursor_word_left (s : EditorState) : EditorState :=
  let r := s.cursor.1
  let c := s.cursor.2
  let line := getLine s r
  match ((List.range line.length).filter
      (fun i => decide (i < c) && (line.getD i ' ').isAlphanum
        && (decide (i = 0) || !(line.getD (i - 1) ' ').isAlphanum))).getLast? with
  | some i => { s with cursor := (r, i) }
  | none => { s with cursor := (r, 0) }

/-- Modelled from the spec: page motion (Ctrl+d / Ctrl+u) depends on the
rendered viewport height, which is outside the engine (sections 1 and 5);
it is modelled as leaving the engine-visible state unchanged. -/
def action_cursor_page_down (s : EditorState) : EditorState := s

/-- Modelled from the spec: see `action_cursor_page_down`. -/
def action_cursor_page_up (s : EditorState) : EditorState := s

/-- Modelled from the spec: `undo()` is delegated to the host buffer
(section 6, "delegated, not reimplemented") whose history is out of scope;
modelled as leaving the engine-visible state unchanged. -/
def action_undo (s : EditorState) : EditorState := s

/-- Modelled from the spec: see `action_undo`. -/
def action_redo (s : EditorState) : EditorState := s

/-- Modelled from the spec: the host `action_indent` under the fixed
4-space policy of section 4.3a. -/
def action_indent (s : EditorState) : EditorState :=
  { s with lines := s.lines.set s.cursor.1 (' ' :: ' ' :: ' ' :: ' ' :: getLine s s.cursor.1) }

/-- Modelled from the spec: the host `action_dedent` under section 4.3a -
remove up to 4 leading spaces, clamped to those present. -/
def action_dedent (s : EditorState) : EditorState :=
  let line := getLine s s.cursor.1
  let lead := min 4 (line.takeWhile (fun c => c = ' ')).length
  { s with lines := s.lines.set s.cursor.1 (line.drop lead) }

/-- Modelled from the spec: the host `action_delete` removes the current
selection (used by the visual-mode case operators). -/
def action_delete (s : EditorState) : EditorState :=
  let (a, b) := orderedSel s
  let s' :=
    if a.1 = b.1 then
      { s with lines := s.lines.set a.1 ((getLine s a.1).take a.2 ++ (getLine s a.1).drop b.2) }
    else
      { s with lines := s.lines.take a.1
                ++ [(getLine s a.1).take a.2 ++ (getLine s b.1).drop b.2]
                ++ s.lines.drop (b.1 + 1) }
  { s' with cursor := a, selStart := a, selEnd := a }

/-- Modelled from the spec: the printable character carried by a key event
(the host keymap); single-character key names stand for themselves, a few
named punctuation keys the dispatcher comments document are mapped, and
non-printable keys carry none. -/
def keyChar (key : String) : Option Char :=
  match key.toList with
  | [c] => some c
  | _ =>
    if key = "left_parenthesis" then some '('
    else if key = "right_parenthesis" then some ')'
    else if key = "dollar" then some '$'
    else if key = "circumflex" then some '^'
    else if key = "greater_than" then some '>'
    else if key = "less_than" then some '<'
    else if key = "tilde" then some '~'
    else if key = "asterisk" then some '*'
    else if key = "numbersign" then some '#'
    else if key = "semicolon" then some ';'
    else if key = "comma" then some ','
    else if key = "braceleft" then some '\x7b'
    else if key = "braceright" then some '\x7d'
    else if key = "space" then some ' '
    else none

/-- `CountHandler.add_digit` (count_handler.py): non-digits and a leading
`'0'` are ignored, otherwise the digit extends the decimal accumulator. -/
def count_add_digit (s : EditorState) (digit : String) : EditorState :=
  if !keyIsDigit digit then s
  else if digit = "0" && s.count_str = [] then s
  else
    let str := s.count_str ++ digit.toList
    { s with count_str := str, count_count := digitsVal str }

/-- `CountHandler.get_count(default)`. -/
def count_get_count (s : EditorState) (default : Nat) : Nat :=
  if s.count_count = 0 then default else s.count_count

/-- `CountHandler.clear`. -/
def count_clear (s : EditorState) : EditorState :=
  { s with count_count := 0, count_str := [] }

/-- `OperatorPendingState.set_operator` (operator_pending.py). -/
def op_set_operator (s : EditorState) (oper : String) (count : Nat) : EditorState :=
  { s with op_operator := some oper, op_count := count }

/-- `OperatorPendingState.is_pending`. -/
def op_is_pending (s : EditorState) : Bool :=
  s.op_operator.isSome

/-- `OperatorPendingState.clear`. -/
def op_clear (s : EditorState) : EditorState :=
  { s with op_operator := none, op_count := 0, op_motion_count := 0 }

/-- `OperatorPendingState.get_total_count` as a function of the stored base
count and motion count (the method reads `self.count`, `self.motion_count`). -/
def get_total_count (count motion_count : Nat) : Nat :=
  if count > 0 ∧ motion_count > 0 then count * motion_count
  else if count > 0 then count
  else if motion_count > 0 then motion_count
  else 1

/-- `VimTextArea._enter_insert_mode`. -/
def enter_insert_mode (s : EditorState) : EditorState :=
  { s with vim_mode := VimMode.INSERT }

/-- `VimTextArea._enter_command_mode`: switches the mode and clears the
visual anchor, the pending two-key command, the count accumulator and the
text-object state.  The operator-pending state is not touched by the
source. -/
def enter_command_mode (s : EditorState) : EditorState :=
  { s with vim_mode := VimMode.COMMAND,
           visual_start := none,
           pending_command := none,
           count_count := 0, count_str := [],
           text_object_state := none }

/-- `VimTextArea._enter_visual_mode`. -/
def enter_visual_mode (s : EditorState) : EditorState :=
  { s with vim_mode := VimMode.VISUAL, visual_start := some s.cursor }

/-- `NavigationMixin.nav_left`. -/
def nav_left (s : EditorState) : EditorState := action_cursor_left s

/-- `NavigationMixin.nav_down`. -/
def nav_down (s : EditorState) : EditorState := action_cursor_down s

/-- `NavigationMixin.nav_up`. -/
def nav_up (s : EditorState) : EditorState := action_cursor_up s

/-- `NavigationMixin.nav_right`. -/
def nav_right (s : EditorState) : EditorState := action_cursor_right s

/-- `NavigationMixin.nav_word_forward`. -/
def nav_word_forward (s : EditorState) : EditorState := action_cursor_word_right s

/-- `NavigationMixin.nav_word_backward`. -/
def nav_word_backward (s : EditorState) : EditorState := action_cursor_word_left s

/-- `NavigationMixin.nav_word_end`: word-right, then one step back when the
landing column is strictly inside the line. -/
def nav_word_end (s : EditorState) : EditorState :=
  let s' := action_cursor_word_right s
  let c := s'.cursor.2
  let line := getLine s' s'.cursor.1
  if 0 < c ∧ c < line.length then action_cursor_left s' else s'

/-- `NavigationMixin.nav_line_start`. -/
def nav_line_start (s : EditorState) : EditorState := action_cursor_line_start s

/-- `NavigationMixin.nav_line_end`. -/
def nav_line_end (s : EditorState) : EditorState := action_cursor_line_end s

/-- `NavigationMixin.nav_first_non_whitespace`. -/
def nav_first_non_whitespace (s : EditorState) : EditorState :=
  let line := getLine s s.cursor.1
  match ((List.range line.length).filter
      (fun i => !(line.getD i ' ').isWhitespace)).head? with
  | some i => { s with cursor := (s.cursor.1, i) }
  | none => action_cursor_line_start s

/-- `NavigationMixin.nav_document_start`. -/
def nav_document_start (s : EditorState) : EditorState :=
  { s with cursor := (0, 0) }

/-- `NavigationMixin.nav_document_end`. -/
def nav_document_end (s : EditorState) : EditorState :=
  if 0 < lineCount s then { s with cursor := (lineCount s - 1, 0) } else s

/-- `NavigationMixin.nav_page_down`. -/
def nav_page_down (s : EditorState) : EditorState := action_cursor_page_down s

/-- `NavigationMixin.nav_page_up`. -/
def nav_page_up (s : EditorState) : EditorState := action_cursor_page_up s

/-- Python truthiness of `line.strip()`: the line has a non-space. -/
def lineHasText (line : List Char) : Bool :=
  line.any (fun c => !c.isWhitespace)

/-- The scan of `nav_paragraph_forward`: walk rows upward carrying the
`found_text` flag, stopping on the first blank line after text. -/
def paraScanFwd (s : EditorState) (i : Nat) (found : Bool) (fuel : Nat) : Option Nat :=
  match fuel with
  | 0 => none
  | fuel + 1 =>
    if i < lineCount s then
      if lineHasText (getLine s i) then paraScanFwd s (i + 1) true fuel
      else if found then some i
      else paraScanFwd s (i + 1) found fuel
    else none

/-- `NavigationMixin.nav_paragraph_forward`. -/
def nav_paragraph_forward (s : EditorState) : EditorState :=
  match paraScanFwd s (s.cursor.1 + 1) false (lineCount s) with
  | some i => { s with cursor := (i, 0) }
  | none => nav_document_end s

/-- The scan of `nav_paragraph_backward`, walking rows downward. -/
def paraScanBwd (s : EditorState) (i : Nat) (found : Bool) (fuel : Nat) : Option Nat :=
  match fuel with
  | 0 => none
  | fuel + 1 =>
    if lineHasText (getLine s i) then
      if i = 0 then none else paraScanBwd s (i - 1) true fuel
    else if found then some i
    else if i = 0 then none
    else paraScanBwd s (i - 1) found fuel

/-- `NavigationMixin.nav_paragraph_backward`. -/
def nav_paragraph_backward (s : EditorState) : EditorState :=
  if s.cursor.1 = 0 then nav_document_start s
  else
    match paraScanBwd s (s.cursor.1 - 1) false (s.cursor.1) with
    | some i => { s with cursor := (i, 0) }
    | none => nav_document_start s

/-- `NavigationMixin.nav_goto_line`: 1-indexed, clamped. -/
def nav_goto_line (s : EditorState) (line_num : Int) : EditorState :=
  let target := max 0 (min (line_num - 1) (Int.ofNat (lineCount s) - 1))
  { s with cursor := (target.toNat, 0) }

/-- `EditingMixin.edit_delete_char` (x). -/
def edit_delete_char (s : EditorState) : EditorState := action_delete_right s

/-- `EditingMixin.edit_delete_char_back` (X). -/
def edit_delete_char_back (s : EditorState) : EditorState := action_delete_left s

/-- `EditingMixin.edit_replace_char` (r{char}): delete right, insert the
key's text, step back.  The source inserts the raw key string. -/
def edit_replace_char (s : EditorState) (char : String) : EditorState :=
  action_cursor_left (insertText (action_delete_right s) char.toList)

/-- `EditingMixin.edit_delete_line` (dd): the line's text (without its
newline) goes to the register, then the line is removed. -/
def edit_delete_line (s : EditorState) : EditorState :=
  action_delete_line { s with yank_register := getLine s s.cursor.1 }

/-- `EditingMixin.edit_yank_line` (yy helper): stores the line's text,
without a trailing newline, in the register. -/
def edit_yank_line (s : EditorState) : EditorState :=
  { s with yank_register := getLine s s.cursor.1 }

/-- `EditingMixin.edit_delete_to_line_end` (D). -/
def edit_delete_to_line_end (s : EditorState) : EditorState :=
  action_delete_to_end_of_line
    { s with yank_register := (getLine s s.cursor.1).drop s.cursor.2 }

/-- `EditingMixin.edit_delete_to_line_start`. -/
def edit_delete_to_line_start (s : EditorState) : EditorState :=
  action_delete_to_start_of_line
    { s with yank_register := (getLine s s.cursor.1).take s.cursor.2 }

/-- `EditingMixin.edit_change_line` (cc helper). -/
def edit_change_line (s : EditorState) : EditorState :=
  enter_insert_mode (edit_delete_line s)

/-- `EditingMixin.edit_paste_after` (p): no-op on the empty register;
register text ending in a newline is pasted, stripped of trailing
newlines, on a new line below; otherwise the cursor moves right one column
and the text is inserted in place. -/
def edit_paste_after (s : EditorState) : EditorState :=
  if s.yank_register = [] then s
  else if endsWithNL s.yank_register then
    insertText (action_cursor_line_end s) ('\n' :: rstripNL s.yank_register)
  else
    insertText (action_cursor_right s) s.yank_register

/-- `EditingMixin.edit_paste_before` (P): no-op on the empty register;
register text ending in a newline is inserted at the line start and the
cursor moves up; otherwise the text is inserted in place. -/
def edit_paste_before (s : EditorState) : EditorState :=
  if s.yank_register = [] then s
  else if endsWithNL s.yank_register then
    action_cursor_up (insertText (action_cursor_line_start s) s.yank_register)
  else
    insertText s s.yank_register

/-- `EditingMixin.edit_open_line_below` (o). -/
def edit_open_line_below (s : EditorState) : EditorState :=
  insertText (action_cursor_line_end s) ['\n']

/-- `EditingMixin.edit_open_line_above` (O). -/
def edit_open_line_above (s : EditorState) : EditorState :=
  action_cursor_up (insertText (action_cursor_line_start s) ['\n'])

/-- `EditingMixin.edit_delete_word` (dw helper): word-right, then, when the
word motion stayed on the row, delete the crossed range. -/
def edit_delete_word (s : EditorState) : EditorState :=
  let start_row := s.cursor.1
  let start_col := s.cursor.2
  let s1 := action_cursor_word_right s
  let end_row := s1.cursor.1
  let end_col := s1.cursor.2
  if start_row = end_row then
    let line := getLine s1 start_row
    let deleted := (line.drop start_col).take (end_col - start_col)
    let s2 := { s1 with yank_register := deleted, cursor := (start_row, start_col) }
    action_delete_right^[end_col - start_col] s2
  else s1

/-- `EditingMixin.edit_change_word` (cw helper). -/
def edit_change_word (s : EditorState) : EditorState :=
  enter_insert_mode (edit_delete_word s)

/-- `EditingMixin.edit_undo` (u). -/
def edit_undo (s : EditorState) : EditorState := action_undo s

/-- `EditingMixin.edit_redo` (Ctrl+r). -/
def edit_redo (s : EditorState) : EditorState := action_redo s

/-- `EditingMixin.edit_join_lines` (J): no-op on the last line, else the
next line, left-stripped, is appended after a space. -/
def edit_join_lines (s : EditorState) : EditorState :=
  let row := s.cursor.1
  if row + 1 ≥ lineCount s then s
  else
    let current := getLine s row
    let next := getLine s (row + 1)
    let s1 := action_delete_line (setCursor s (row + 1, 0))
    insertText (setCursor s1 (row, current.length))
      (' ' :: next.dropWhile Char.isWhitespace)

/-- `EditingMixin.edit_indent` (>>). -/
def edit_indent (s : EditorState) : EditorState := action_indent s

/-- `EditingMixin.edit_dedent` (<<). -/
def edit_dedent (s : EditorState) : EditorState := action_dedent s

/-- `SearchMixin.search_char_forward` (f{char}): find the key's text on the
current line strictly after the cursor; on success move there and record
("f", char) for repeat. -/
def search_char_forward (s : EditorState) (char : String) : EditorState × Bool :=
  let row := s.cursor.1
  let col := s.cursor.2
  let line := getLine s row
  if col + 1 < line.length then
    match findFrom line char.toList (col + 1) with
    | some idx =>
      ({ s with cursor := (row, idx), last_f_search := some ("f", char) }, true)
    | none => (s, false)
  else (s, false)

/-- `SearchMixin.search_char_backward` (F{char}). -/
def search_char_backward (s : EditorState) (char : String) : EditorState × Bool :=
  let row := s.cursor.1
  let col := s.cursor.2
  let line := getLine s row
  if 0 < col then
    match rfindBefore line char.toList col with
    | some idx =>
      ({ s with cursor := (row, idx), last_f_search := some ("F", char) }, true)
    | none => (s, false)
  else (s, false)

/-- `SearchMixin.search_till_forward` (t{char}): find forward, and when the
find moved the cursor past the original column, step one column back and
record ("t", char); otherwise restore the original position and fail. -/
def search_till_forward (s : EditorState) (char : String) : EditorState × Bool :=
  let row := s.cursor.1
  let col := s.cursor.2
  let (s1, found) := search_char_forward s char
  if found then
    if col < s1.cursor.2 then
      ({ action_cursor_left s1 with last_f_search := some ("t", char) }, true)
    else
      ({ s1 with cursor := (row, col) }, false)
  else (s1, false)

/-- `SearchMixin.search_till_backward` (T{char}). -/
def search_till_backward (s : EditorState) (char : String) : EditorState × Bool :=
  let row := s.cursor.1
  let col := s.cursor.2
  let (s1, found) := search_char_backward s char
  if found then
    if s1.cursor.2 < col then
      ({ action_cursor_right s1 with last_f_search := some ("T", char) }, true)
    else
      ({ s1 with cursor := (row, col) }, false)
  else (s1, false)

/-- `SearchMixin.search_repeat` (;). -/
def search_repeat (s : EditorState) : EditorState × Bool :=
  match s.last_f_search with
  | none => (s, false)
  | some (kind, char) =>
    if kind = "f" then search_char_forward s char
    else if kind = "F" then search_char_backward s char
    else if kind = "t" then search_till_forward s char
    else if kind = "T" then search_till_backward s char
    else (s, false)

/-- `SearchMixin.search_repeat_reverse` (,). -/
def search_repeat_reverse (s : EditorState) : EditorState × Bool :=
  match s.last_f_search with
  | none => (s, false)
  | some (kind, char) =>
    if kind = "f" then search_char_backward s char
    else if kind = "F" then search_char_forward s char
    else if kind = "t" then search_till_backward s char
    else if kind = "T" then search_till_forward s char
    else (s, false)

/-- `SearchMixin._search_word_forward`: the current line's remainder, then
later rows, then wrap to the rows before the cursor. -/
def search_word_fwd_from (s : EditorState) (word : List Char) (start_row start_col : Nat) :
    EditorState × Bool :=
  match findFrom ((getLine s start_row).drop start_col) word 0 with
  | some idx => ({ s with cursor := (start_row, start_col + idx) }, true)
  | none =>
    let later := (List.range (lineCount s)).filter (fun r => decide (start_row < r))
    let before := (List.range (lineCount s)).filter (fun r => decide (r < start_row))
    match (later ++ before).findSome?
        (fun r => (findFrom (getLine s r) word 0).map (fun idx => (r, idx))) with
    | some p => ({ s with cursor := p }, true)
    | none => (s, false)

/-- `SearchMixin._search_word_backward`: the current line up to the cursor,
then earlier rows backward, then wrap to the rows after the cursor. -/
def search_word_bwd_from (s : EditorState) (word : List Char) (start_row start_col : Nat) :
    EditorState × Bool :=
  match rfindBefore (getLine s start_row) word start_col with
  | some idx => ({ s with cursor := (start_row, idx) }, true)
  | none =>
    let earlier := ((List.range (lineCount s)).filter (fun r => decide (r < start_row))).reverse
    let afterR := ((List.range (lineCount s)).filter (fun r => decide (start_row < r))).reverse
    match (earlier ++ afterR).findSome?
        (fun r =>
          (rfindBefore (getLine s r) word (getLine s r).length).map (fun idx => (r, idx))) with
    | some p => ({ s with cursor := p }, true)
    | none => (s, false)

/-- `SearchMixin.search_word_under_cursor` (* / #): fail off a word, else
remember the maximal alphanumeric run under the cursor and search it. -/
def search_word_under_cursor (s : EditorState) (forward : Bool) : EditorState × Bool :=
  let row := s.cursor.1
  let col := s.cursor.2
  let line := getLine s row
  if col ≥ line.length || !(line.getD col ' ').isAlphanum then (s, false)
  else
    let start := col - ((line.take col).reverse.takeWhile Char.isAlphanum).length
    let stop := col + ((line.drop col).takeWhile Char.isAlphanum).length
    let word := (line.drop start).take (stop - start)
    if word = [] then (s, false)
    else
      let s1 := { s with last_search_word := some word }
      if forward then search_word_fwd_from s1 word row stop
      else search_word_bwd_from s1 word row start

/-- `TextObjectMixin.BRACKET_PAIRS` as a partner function. -/
def bracketPartner (c : Char) : Char :=
  if c = '(' then ')'
  else if c = ')' then '('
  else if c = '[' then ']'
  else if c = ']' then '['
  else if c = '\x7b' then '\x7d'
  else if c = '\x7d' then '\x7b'
  else if c = '<' then '>'
  else if c = '>' then '<'
  else c

/-- Membership in `BRACKET_PAIRS`. -/
def isBracketChar (c : Char) : Bool :=
  c ∈ ['(', ')', '[', ']', '\x7b', '\x7d', '<', '>']

/-- Membership in `QUOTE_CHARS`. -/
def isQuoteChar (c : Char) : Bool :=
  c ∈ ['"', '\x27', '\x60']

/-- The backward scan of `_get_bracket_object`: from index `i` down to 0,
closing brackets deepen, an opening bracket at depth 0 is the match.  The
source indexes `line[i]` directly and would raise on a column beyond the
line (a host exception per section 7, outside every claim); reads here are
total with a blank default. -/
def findOpenBracket (line : List Char) (openc closec : Char) : Nat → Nat → Option Nat
  | 0, depth =>
    let ch := line.getD 0 ' '
    if ch = closec then none
    else if ch = openc then (if depth = 0 then some 0 else none)
    else none
  | i + 1, depth =>
    let ch := line.getD (i + 1) ' '
    if ch = closec then findOpenBracket line openc closec i (depth + 1)
    else if ch = openc then
      if depth = 0 then some (i + 1)
      else findOpenBracket line openc closec i (depth - 1)
    else findOpenBracket line openc closec i depth

/-- The forward scan of `_get_bracket_object`: from index `i` to the line
end, opening brackets deepen, a closing bracket at depth 0 is the match. -/
def findCloseBracketAux (line : List Char) (openc closec : Char) :
    Nat → Nat → Nat → Option Nat
  | 0, _, _ => none
  | fuel + 1, i, depth =>
    if i < line.length then
      let ch := line.getD i ' '
      if ch = openc then findCloseBracketAux line openc closec fuel (i + 1) (depth + 1)
      else if ch = closec then
        if depth = 0 then some i
        else findCloseBracketAux line openc closec fuel (i + 1) (depth - 1)
      else findCloseBracketAux line openc closec fuel (i + 1) depth
    else none

/-- Entry point of the forward bracket scan with enough fuel for the line. -/
def findCloseBracket (line : List Char) (openc closec : Char) (i depth : Nat) : Option Nat :=
  findCloseBracketAux line openc closec (line.length + 1 - i) i depth

/-- The backward scan of `_get_quote_object`: nearest quote at or before
the cursor, skipping ones escaped by a preceding backslash. -/
def findOpenQuote (line : List Char) (q : Char) : Nat → Option Nat
  | 0 => if line.getD 0 ' ' = q then some 0 else none
  | i + 1 =>
    if line.getD (i + 1) ' ' = q ∧ line.getD i ' ' ≠ '\\' then some (i + 1)
    else findOpenQuote line q i

/-- The forward scan of `_get_quote_object`: next unescaped quote strictly
after the opening one. -/
def findCloseQuoteAux (line : List Char) (q : Char) : Nat → Nat → Option Nat
  | 0, _ => none
  | fuel + 1, i =>
    if i < line.length then
      if line.getD i ' ' = q ∧ line.getD (i - 1) ' ' ≠ '\\' then some i
      else findCloseQuoteAux line q fuel (i + 1)
    else none

/-- Entry point of the forward quote scan with enough fuel for the line. -/
def findCloseQuote (line : List Char) (q : Char) (i : Nat) : Option Nat :=
  findCloseQuoteAux line q (line.length + 1 - i) i

/-- `TextObjectMixin._get_word_object`. -/
def get_word_object (s : EditorState) (inner : Bool) : Option (Pos × Pos) :=
  let row := s.cursor.1
  let col := s.cursor.2
  let line := getLine s row
  if col ≥ line.length then none
  else
    let start := col - ((line.take col).reverse.takeWhile Char.isAlphanum).length
    let stop0 := col + ((line.drop col).takeWhile Char.isAlphanum).length
    let stop :=
      if inner then stop0
      else stop0 + ((line.drop stop0).takeWhile Char.isWhitespace).length
    if start = stop then none
    else some ((row, start), (row, stop))

/-- `TextObjectMixin._get_bracket_object`: same-line scan for the enclosing
pair honoring nesting; `inner` excludes the delimiters. -/
def get_bracket_object (s : EditorState) (bracket : Char) (inner : Bool) : Option (Pos × Pos) :=
  let pair :=
    if bracket ∈ ['(', '[', '\x7b', '<'] then (bracket, bracketPartner bracket)
    else (bracketPartner bracket, bracket)
  let openc := pair.1
  let closec := pair.2
  let row := s.cursor.1
  let col := s.cursor.2
  let line := getLine s row
  match findOpenBracket line openc closec col 0 with
  | none => none
  | some open_pos =>
    match findCloseBracket line openc closec col 0 with
    | none => none
    | some close_pos =>
      if inner then some ((row, open_pos + 1), (row, close_pos))
      else some ((row, open_pos), (row, close_pos + 1))

/-- `TextObjectMixin._get_quote_object`. -/
def get_quote_object (s : EditorState) (quote : Char) (inner : Bool) : Option (Pos × Pos) :=
  let row := s.cursor.1
  let col := s.cursor.2
  let line := getLine s row
  match findOpenQuote line quote col with
  | none => none
  | some open_pos =>
    match findCloseQuote line quote (open_pos + 1) with
    | none => none
    | some close_pos =>
      if inner then some ((row, open_pos + 1), (row, close_pos))
      else some ((row, open_pos), (row, close_pos + 1))

/-- `TextObjectMixin.get_text_object`. -/
def get_text_object (s : EditorState) (obj_type : String) (obj_char : Char) (inner : Bool) :
    Option (Pos × Pos) :=
  if obj_type = "w" then get_word_object s inner
  else if isBracketChar obj_char then get_bracket_object s obj_char inner
  else if isQuoteChar obj_char then get_quote_object s obj_char inner
  else none

/-- `TextObjectMixin.delete_text_object` (diw, di(, ...): resolve the
range; on a same-row range store the text in the register, move to the
range start, and delete it character by character. -/
def delete_text_object (s : EditorState) (obj_type : String) (obj_char : Char) (inner : Bool) :
    EditorState × Bool :=
  match get_text_object s obj_type obj_char inner with
  | none => (s, false)
  | some (start_pos, end_pos) =>
    if start_pos.1 = end_pos.1 then
      let line := getLine s start_pos.1
      let deleted := (line.drop start_pos.2).take (end_pos.2 - start_pos.2)
      let s1 := { s with yank_register := deleted, cursor := start_pos }
      (action_delete_right^[end_pos.2 - start_pos.2] s1, true)
    else (s, false)

/-- `TextObjectMixin.change_text_object`. -/
def change_text_object (s : EditorState) (obj_type : String) (obj_char : Char) (inner : Bool) :
    EditorState × Bool :=
  let (s1, ok) := delete_text_object s obj_type obj_char inner
  if ok then (enter_insert_mode s1, true) else (s1, false)

/-- `TextObjectMixin.yank_text_object`. -/
def yank_text_object (s : EditorState) (obj_type : String) (obj_char : Char) (inner : Bool) :
    EditorState × Bool :=
  match get_text_object s obj_type obj_char inner with
  | none => (s, false)
  | some (start_pos, end_pos) =>
    if start_pos.1 = end_pos.1 then
      let line := getLine s start_pos.1
      ({ s with yank_register := (line.drop start_pos.2).take (end_pos.2 - start_pos.2) }, true)
    else (s, false)

/-- `VisualMixin._make_inclusive_end`: extend the end by one column unless
already at the line end. -/
def make_inclusive_end (s : EditorState) (row col : Nat) : Pos :=
  if col < (getLine s row).length then (row, col + 1) else (row, col)

/-- `VisualMixin._extend_selection`: keep (or start) the selection anchor,
set the inclusive end, then reposition the cursor. -/
def extend_selection (s : EditorState) (new_row new_col : Nat) : EditorState :=
  let start := if s.selStart = s.selEnd then s.cursor else s.selStart
  let ie := make_inclusive_end s new_row new_col
  { s with selStart := start, selEnd := ie, cursor := (new_row, new_col) }

/-- `VisualMixin.visual_left`. -/
def visual_left (s : EditorState) : EditorState :=
  if 0 < s.cursor.2 then extend_selection s s.cursor.1 (s.cursor.2 - 1) else s

/-- `VisualMixin.visual_down`. -/
def visual_down (s : EditorState) : EditorState :=
  if s.cursor.1 < lineCount s - 1 then extend_selection s (s.cursor.1 + 1) s.cursor.2 else s

/-- `VisualMixin.visual_up`. -/
def visual_up (s : EditorState) : EditorState :=
  if 0 < s.cursor.1 then extend_selection s (s.cursor.1 - 1) s.cursor.2 else s

/-- `VisualMixin.visual_right`. -/
def visual_right (s : EditorState) : EditorState :=
  if s.cursor.2 < (getLine s s.cursor.1).length then
    extend_selection s s.cursor.1 (s.cursor.2 + 1)
  else s

/-- The shared save-navigate-reselect pattern of the visual word and
document motions. -/
def visual_motion_reselect (s : EditorState) (nav : EditorState → EditorState) : EditorState :=
  let selection_start := if s.selStart ≠ s.selEnd then s.selStart else s.cursor
  let s1 := nav s
  let ie := make_inclusive_end s1 s1.cursor.1 s1.cursor.2
  { s1 with selStart := selection_start, selEnd := ie }

/-- `VisualMixin.visual_word_forward`. -/
def visual_word_forward (s : EditorState) : EditorState :=
  visual_motion_reselect s nav_word_forward

/-- `VisualMixin.visual_word_backward`. -/
def visual_word_backward (s : EditorState) : EditorState :=
  visual_motion_reselect s nav_word_backward

/-- `VisualMixin.visual_word_end`. -/
def visual_word_end (s : EditorState) : EditorState :=
  visual_motion_reselect s nav_word_end

/-- `VisualMixin.visual_line_start`. -/
def visual_line_start (s : EditorState) : EditorState :=
  extend_selection s s.cursor.1 0

/-- `VisualMixin.visual_line_end`: extend to the last character's column
(0 on an empty line). -/
def visual_line_end (s : EditorState) : EditorState :=
  extend_selection s s.cursor.1 ((getLine s s.cursor.1).length - 1)

/-- `VisualMixin.visual_document_start`. -/
def visual_document_start (s : EditorState) : EditorState :=
  visual_motion_reselect s nav_document_start

/-- `VisualMixin.visual_document_end`. -/
def visual_document_end (s : EditorState) : EditorState :=
  visual_motion_reselect s nav_document_end

/-- `VisualMixin.visual_yank`: a non-empty selection's text goes to the
register; an empty selection leaves the register untouched. -/
def visual_yank (s : EditorState) : EditorState :=
  if selected_text s ≠ [] then { s with yank_register := selected_text s } else s

/-- `VisualMixin.visual_delete`. -/
def visual_delete (s : EditorState) : EditorState :=
  if selected_text s ≠ [] then
    replaceRange { s with yank_register := selected_text s } [] s.selStart s.selEnd
  else s

/-- `VisualMixin.visual_change`. -/
def visual_change (s : EditorState) : EditorState :=
  enter_insert_mode (visual_delete s)

/-- `VisualMixin.visual_indent`: 4 spaces before every selected row. -/
def visual_indent (s : EditorState) : EditorState :=
  let lo := min s.selStart.1 s.selEnd.1
  let hi := max s.selStart.1 s.selEnd.1
  { s with lines := s.lines.mapIdx (fun r line =>
      if lo ≤ r ∧ r ≤ hi then ' ' :: ' ' :: ' ' :: ' ' :: line else line) }

/-- `VisualMixin.visual_dedent`: rows starting with 4 spaces lose them; on
any other selected row the source calls `line.lstrip(" ", 1)`, a Python
`TypeError` that would propagate to the host (section 7) - no claim
reaches that branch, modelled as leaving the row unchanged. -/
def visual_dedent (s : EditorState) : EditorState :=
  let lo := min s.selStart.1 s.selEnd.1
  let hi := max s.selStart.1 s.selEnd.1
  { s with lines := s.lines.mapIdx (fun r line =>
      if lo ≤ r ∧ r ≤ hi then
        if line.take 4 = [' ', ' ', ' ', ' '] then line.drop 4 else line
      else line) }

/-- Python `str.swapcase` on one character. -/
def charSwapCase (c : Char) : Char :=
  if c.isUpper then c.toLower else if c.isLower then c.toUpper else c

/-- `VisualMixin.visual_toggle_case` (~). -/
def visual_toggle_case (s : EditorState) : EditorState :=
  if selected_text s ≠ [] then
    insertText (action_delete s) ((selected_text s).map charSwapCase)
  else s

/-- `VisualMixin.visual_uppercase` (U). -/
def visual_uppercase (s : EditorState) : EditorState :=
  if selected_text s ≠ [] then
    insertText (action_delete s) ((selected_text s).map Char.toUpper)
  else s

/-- `VisualMixin.visual_lowercase` (u in visual mode). -/
def visual_lowercase (s : EditorState) : EditorState :=
  if selected_text s ≠ [] then
    insertText (action_delete s) ((selected_text s).map Char.toLower)
  else s

/-- `OperatorMotionHandler._apply_operator`: same-row ranges only; the
columns are swapped so start ≤ end, the half-open slice of the line is the
affected text; delete and change remove it (change then enters Insert),
yank stores it and puts the cursor back at the original, unswapped,
starting position. -/
def apply_operator (s : EditorState) (oper : String) (start_pos end_pos : Pos) :
    EditorState × Bool :=
  let start_row := start_pos.1
  let end_row := end_pos.1
  if start_row = end_row then
    let cols :=
      if end_pos.2 < start_pos.2 then (end_pos.2, start_pos.2) else (start_pos.2, end_pos.2)
    let start_col := cols.1
    let end_col := cols.2
    let line := getLine s start_row
    let affected := (line.drop start_col).take (end_col - start_col)
    if oper = "d" then
      let s1 := { s with yank_register := affected, cursor := (start_row, start_col) }
      (action_delete_right^[end_col - start_col] s1, true)
    else if oper = "c" then
      let s1 := { s with yank_register := affected, cursor := (start_row, start_col) }
      (enter_insert_mode (action_delete_right^[end_col - start_col] s1), true)
    else if oper = "y" then
      ({ s with yank_register := affected, cursor := start_pos }, true)
    else (s, false)
  else (s, false)

/-- `OperatorMotionHandler.execute_operator_motion`: run the motion
`count` times; an unmoved cursor is a no-op, otherwise apply the operator
to the crossed range. -/
def execute_operator_motion (s : EditorState) (oper : String)
    (motion : EditorState → EditorState) (count : Nat) : EditorState × Bool :=
  let start_pos := s.cursor
  let s1 := motion^[count] s
  let end_pos := s1.cursor
  if start_pos = end_pos then (s1, false)
  else apply_operator s1 oper start_pos end_pos

/-- `OperatorMotionHandler.execute_line_operator` (dd, yy, cc): delete and
change remove `count` lines via `edit_delete_line` (change then enters
Insert); yank joins the next `count` existing lines with newlines, plus a
trailing newline, into the register. -/
def execute_line_operator (s : EditorState) (oper : String) (count : Nat) :
    EditorState × Bool :=
  if oper = "d" then (edit_delete_line^[count] s, true)
  else if oper = "y" then
    let row := s.cursor.1
    let ls := (List.range count).filterMap
      (fun i => if row + i < lineCount s then some (getLine s (row + i)) else none)
    ({ s with yank_register := (ls.intersperse ['\n']).flatten ++ ['\n'] }, true)
  else if oper = "c" then (enter_insert_mode (edit_delete_line^[count] s), true)
  else (s, false)

/-- The `motion_map` of `VimTextArea._handle_operator_motion`. -/
def motionOf (key : String) : Option (EditorState → EditorState) :=
  if key = "h" then some nav_left
  else if key = "j" then some nav_down
  else if key = "k" then some nav_up
  else if key = "l" then some nav_right
  else if key = "w" then some nav_word_forward
  else if key = "b" then some nav_word_backward
  else if key = "e" then some nav_word_end
  else if key = "0" then some nav_line_start
  else if key = "dollar" then some nav_line_end
  else if key = "circumflex" then some nav_first_non_whitespace
  else none

/-- `VimTextArea._handle_operator_motion`: doubled operator letter runs the
linewise operator, a motion-map key runs operator+motion, Escape cancels;
any other key is reported unhandled with the state untouched (the caller
then falls through to normal dispatch). -/
def handle_operator_motion (s : EditorState) (key : String) : EditorState × Bool :=
  let oper := s.op_operator.getD ""
  if key = oper then
    let (s1, success) := execute_line_operator s oper (get_total_count s.op_count s.op_motion_count)
    (op_clear s1, success)
  else
    match motionOf key with
    | some motion =>
      let (s1, success) :=
        execute_operator_motion s oper motion (get_total_count s.op_count s.op_motion_count)
      (op_clear s1, success)
    | none =>
      if key = "escape" then (op_clear s, true)
      else (s, false)

/-- `VimTextArea._handle_pending_command`: the second key of a held two-key
command; the pending token is cleared afterwards in every case. -/
def handle_pending_command (s : EditorState) (key : String) : EditorState :=
  let pending := s.pending_command.getD ""
  let s1 :=
    if pending = "d" ∧ key = "d" then edit_delete_line s
    else if pending = "d" ∧ key = "w" then edit_delete_word s
    else if pending = "y" ∧ key = "y" then edit_yank_line s
    else if pending = "c" ∧ key = "c" then edit_change_line s
    else if pending = "c" ∧ key = "w" then edit_change_word s
    else if pending = "g" ∧ key = "g" then nav_document_start s
    else if pending = ">" ∧ key = "greater_than" then edit_indent s
    else if pending = "<" ∧ key = "less_than" then edit_dedent s
    else if pending = "r" then edit_replace_char s key
    else if pending = "f" then (search_char_forward s key).1
    else if pending = "F" then (search_char_backward s key).1
    else if pending = "t" then (search_till_forward s key).1
    else if pending = "T" then (search_till_backward s key).1
    else s
  { s1 with pending_command := none }

/-- `VimTextArea._handle_insert_mode`: Enter submits the buffer's text to
the host and clears the buffer; every other key falls to the host widget's
default behavior, modelled as typing the key's printable character. -/
def handle_insert_mode (s : EditorState) (key : String) : EditorState :=
  if key = "enter" then
    { s with lines := [[]], cursor := (0, 0), selStart := (0, 0), selEnd := (0, 0) }
  else
    match keyChar key with
    | some c => insertText s [c]
    | none => s

/-- The static command table of `VimTextArea._handle_command_mode` (the
if/elif chain after the digit, operator-pending and pending-command
stages), in source order. -/
def command_dispatch (s : EditorState) (key : String) : EditorState :=
  if key = "h" then count_clear (nav_left^[count_get_count s 1] s)
  else if key = "j" then count_clear (nav_down^[count_get_count s 1] s)
  else if key = "k" then count_clear (nav_up^[count_get_count s 1] s)
  else if key = "l" then count_clear (nav_right^[count_get_count s 1] s)
  else if key = "w" then count_clear (nav_word_forward^[count_get_count s 1] s)
  else if key = "b" then count_clear (nav_word_backward^[count_get_count s 1] s)
  else if key = "e" then count_clear (nav_word_end^[count_get_count s 1] s)
  else if key = "0" then nav_line_start s
  else if key = "dollar" then nav_line_end s
  else if key = "circumflex" then nav_first_non_whitespace s
  else if key = "g" then { s with pending_command := some "g" }
  else if key = "G" then nav_document_end s
  else if key = "ctrl+d" then nav_page_down s
  else if key = "ctrl+u" then nav_page_up s
  else if key = "braceleft" then nav_paragraph_backward s
  else if key = "braceright" then nav_paragraph_forward s
  else if key = "i" then enter_insert_mode s
  else if key = "I" then enter_insert_mode (nav_line_start s)
  else if key = "a" then enter_insert_mode (nav_right s)
  else if key = "A" then enter_insert_mode (nav_line_end s)
  else if key = "o" then enter_insert_mode (edit_open_line_below s)
  else if key = "O" then enter_insert_mode (edit_open_line_above s)
  else if key = "v" then enter_visual_mode s
  else if key = "x" then edit_delete_char s
  else if key = "X" then edit_delete_char_back s
  else if key = "d" then count_clear (op_set_operator s "d" (count_get_count s 0))
  else if key = "D" then edit_delete_to_line_end s
  else if key = "c" then count_clear (op_set_operator s "c" (count_get_count s 0))
  else if key = "C" then enter_insert_mode (edit_delete_to_line_end s)
  else if key = "y" then count_clear (op_set_operator s "y" (count_get_count s 0))
  else if key = "p" then edit_paste_after s
  else if key = "P" then edit_paste_before s
  else if key = "r" then { s with pending_command := some "r" }
  else if key = "J" then edit_join_lines s
  else if key = "greater_than" then { s with pending_command := some ">" }
  else if key = "less_than" then { s with pending_command := some "<" }
  else if key = "u" then edit_undo s
  else if key = "ctrl+r" then edit_redo s
  else if key = "f" then { s with pending_command := some "f" }
  else if key = "F" then { s with pending_command := some "F" }
  else if key = "t" then { s with pending_command := some "t" }
  else if key = "T" then { s with pending_command := some "T" }
  else if key = "semicolon" then (search_repeat s).1
  else if key = "comma" then (search_repeat_reverse s).1
  else if key = "asterisk" then (search_word_under_cursor s true).1
  else if key = "numbersign" then (search_word_under_cursor s false).1
  else s

/-- `VimTextArea._handle_command_mode`: digits feed the motion count while
an operator is pending and the count accumulator otherwise; a pending
operator gets the key first and, when it reports the key unhandled, the
key falls through to the pending-command stage and the command table. -/
def handle_command_mode (s : EditorState) (key : String) : EditorState :=
  if keyIsDigit key then
    if op_is_pending s then
      { s with op_motion_count := s.op_motion_count * 10 + digitsVal key.toList }
    else count_add_digit s key
  else
    let handled := if op_is_pending s then handle_operator_motion s key else (s, false)
    if handled.2 then handled.1
    else
      let s1 := handled.1
      if s1.pending_command.isSome then handle_pending_command s1 key
      else command_dispatch s1 key

/-- `VimTextArea._handle_visual_mode`, in source order. -/
def handle_visual_mode (s : EditorState) (key : String) : EditorState :=
  if key = "h" then visual_left s
  else if key = "j" then visual_down s
  else if key = "k" then visual_up s
  else if key = "l" then visual_right s
  else if key = "w" then visual_word_forward s
  else if key = "b" then visual_word_backward s
  else if key = "0" then visual_line_start s
  else if key = "dollar" then visual_line_end s
  else if key = "y" then enter_command_mode (visual_yank s)
  else if key = "d" ∨ key = "x" then enter_command_mode (visual_delete s)
  else if key = "c" then visual_change s
  else if key = "greater_than" then visual_indent s
  else if key = "less_than" then visual_dedent s
  else if key = "tilde" then visual_toggle_case s
  else if key = "u" then visual_lowercase s
  else if key = "U" then visual_uppercase s
  else s

/-- `VimTextArea.on_key`: Escape always enters Command mode, every other
key is routed to the current mode's handler. -/
def on_key (s : EditorState) (key : String) : EditorState :=
  if key = "escape" then enter_command_mode s
  else
    match s.vim_mode with
    | VimMode.INSERT => handle_insert_mode s key
    | VimMode.COMMAND => handle_command_mode s key
    | VimMode.VISUAL => handle_visual_mode s key
    | VimMode.VISUAL_LINE => s

/-- Feed a key sequence through `on_key`. -/
def run_keys (s : EditorState) (keys : List String) : EditorState :=
  keys.foldl on_key s

/-- A fresh widget state over the given buffer lines, cursor and mode, as
`VimTextArea.__init__` leaves the vim state (empty register, no pendings,
no counts), with the host selection collapsed on the cursor. -/
def mkState (lines : List (List Char)) (cursor : Pos) (mode : VimMode) : EditorState :=
  { lines := lines
    cursor := cursor
    selStart := cursor
    selEnd := cursor
    yank_register := []
    vim_mode := mode
    visual_start := none
    pending_command := none
    last_f_search := none
    last_search_word := none
    op_operator := none
    op_count := 0
    op_motion_count := 0
    count_count := 0
    count_str := []
    text_object_state := none }

/-- Buffer "ab", cursor at (0,0), Command mode. -/
def exAB : EditorState := mkState [['a', 'b']] (0, 0) VimMode.COMMAND

/-- Buffer "(a,b)", cursor on the 'a', Command mode. -/
def exParen : EditorState :=
  mkState [['(', 'a', ',', 'b', ')']] (0, 1) VimMode.COMMAND

/-- Buffer "hello", cursor at (0,0), Command mode. -/
def exHello : EditorState := mkState [['h', 'e', 'l', 'l', 'o']] (0, 0) VimMode.COMMAND

/-- Buffer "ab", cursor at (0,1), Command mode. -/
def exAB1 : EditorState := mkState [['a', 'b']] (0, 1) VimMode.COMMAND

/-- Buffer "aaa" / "bbb", cursor at (0,0), Command mode. -/
def exTwoLines : EditorState :=
  mkState [['a', 'a', 'a'], ['b', 'b', 'b']] (0, 0) VimMode.COMMAND

/-- Buffer "ab", cursor at (0,0), register "Z\n" (linewise content). -/
def exRegLine : EditorState :=
  { mkState [['a', 'b']] (0, 0) VimMode.COMMAND with yank_register := ['Z', '\n'] }

/-- Buffer "ab", cursor at (0,0), register "Z" (charwise content). -/
def exRegChar : EditorState :=
  { mkState [['a', 'b']] (0, 0) VimMode.COMMAND with yank_register := ['Z'] }

/-- C1: the claim is that every transition into Command mode - in
particular Escape from any pending state - clears the pending operator, so
that a following key is dispatched as plain navigation.  The code violates
this: `_enter_command_mode` clears the pending two-key command, the count
accumulator, the visual anchor and the text-object state but not the
operator-pending state, and `on_key` intercepts Escape before
`_handle_operator_motion`'s own cancel branch can run.  On buffer "ab"
with operator `d` pending, Escape reports Command mode yet leaves the
operator pending, and the next key `l` is consumed as the operator motion
`dl`: it deletes the character 'a' into the register instead of moving
right. -/
theorem C1_escape_leaves_operator_pending :
    (run_keys exAB ["d", "escape"]).vim_mode = VimMode.COMMAND ∧
    (run_keys exAB ["d", "escape"]).op_operator = some "d" ∧
    (run_keys exAB ["d", "escape", "l"]).lines = [['b']] ∧
    (run_keys exAB ["d", "escape", "l"]).yank_register = ['a'] ∧
    (command_dispatch (op_clear (run_keys exAB ["d", "escape"])) "l").lines = [['a', 'b']] := by
  decide

/-- C2: for all base count b ≥ 0 and motion count m ≥ 0, the total repeat
count of `OperatorPendingState.get_total_count` is b * m when both are
non-zero, the non-zero one when exactly one is, and 1 when both are zero -
equivalently max(b,1) * max(m,1) unless both are zero. -/
theorem C2_total_count (b m : Nat) :
    get_total_count b m = if b = 0 ∧ m = 0 then 1 else max b 1 * max m 1 := by
  unfold get_total_count
  by_cases hb : b = 0 <;> by_cases hm : m = 0
  · simp [hb, hm]
  · have h2 : max m 1 = m := Nat.max_eq_left (Nat.one_le_iff_ne_zero.mpr hm)
    simp [hb, hm, h2, Nat.pos_of_ne_zero]
  · have h1 : max b 1 = b := Nat.max_eq_left (Nat.one_le_iff_ne_zero.mpr hb)
    simp [hb, hm, h1, Nat.pos_of_ne_zero]
  · have h1 : max b 1 = b := Nat.max_eq_left (Nat.one_le_iff_ne_zero.mpr hb)
    have h2 : max m 1 = m := Nat.max_eq_left (Nat.one_le_iff_ne_zero.mpr hm)
    simp [hb, hm, h1, h2, Nat.pos_of_ne_zero]

/-- C3: the claim is that with buffer "(a,b)" and the cursor on 'a', the
keys `d`, `i`, `(` delete the inner-bracket text object, leaving "()" with
"a,b" in the register.  The text-object resolver
(`TextObjectMixin.delete_text_object`) indeed computes exactly that
result, but the key dispatcher never reaches it: `_handle_operator_motion`
has no text-object path, so `i` falls through to the command table and
enters Insert mode (operator still pending), and `(` is then typed
literally, producing "((a,b)" with the register untouched. -/
theorem C3_text_object_not_dispatched :
    (run_keys exParen ["d", "i", "left_parenthesis"]).lines = [['(', '(', 'a', ',', 'b', ')']] ∧
    (run_keys exParen ["d", "i", "left_parenthesis"]).vim_mode = VimMode.INSERT ∧
    (run_keys exParen ["d", "i", "left_parenthesis"]).yank_register = [] ∧
    (delete_text_object exParen "(" '(' true).1.lines = [['(', ')']] ∧
    (delete_text_object exParen "(" '(' true).1.yank_register = ['a', ',', 'b'] ∧
    (delete_text_object exParen "(" '(' true).2 = true := by
  decide

/-- C4 counterexample: the claim is that at most one of the pending
operator and the pending two-key command is ever active, keys while an
operator is pending being swallowed when unrecognized.  After `d` then
`g`, the key `g` falls through `_handle_operator_motion` into the command
table, which records a pending `g` while the operator `d` is still
pending: both are active at once. -/
theorem C4_counterexample_both_pending :
    (run_keys exAB ["d", "g"]).op_operator = some "d" ∧
    (run_keys exAB ["d", "g"]).pending_command = some "g" := by
  decide

/-- C4 amended: while an operator is pending, a non-digit key that is not
the doubled operator letter, not a catalog motion key and not Escape is
not swallowed: `_handle_operator_motion` reports it unhandled with the
state untouched, so the key falls through to normal command dispatch,
where it can set a pending two-key command alongside the pending
operator. -/
theorem C4_unhandled_key_falls_through (s : EditorState) (key : String)
    (hkey : key ≠ s.op_operator.getD "") (hmot : motionOf key = none)
    (hesc : key ≠ "escape") :
    handle_operator_motion s key = (s, false) := by
  unfold handle_operator_motion
  simp [hkey, hmot, hesc]

/-- Witness for C4 amended: the key "g" while `d` is pending. -/
theorem C4_unhandled_key_falls_through_witness :
    handle_operator_motion (command_dispatch exAB "d") "g" = (command_dispatch exAB "d", false) :=
  C4_unhandled_key_falls_through (command_dispatch exAB "d") "g"
    (by decide) rfl (by decide)

/-- C5 counterexample: the claim quantifies over every n ≥ 0, including
n = 0, and asserts the yank stores n + 1 characters.  Entering Visual mode
on "hello" and yanking immediately (n = 0) stores nothing: the selection
is still collapsed, so `visual_yank` leaves the register untouched (empty
here) instead of storing the one character 'h' under the cursor. -/
theorem C5_counterexample_zero_extension :
    (run_keys exHello ["v", "y"]).yank_register = [] ∧
    (run_keys exHello ["v", "y"]).yank_register ≠ ['h'] := by
  decide

/-- C6 counterexample: the claim says a yank completed by a same-row
motion restores the cursor to the normalized range start.  With buffer
"ab", cursor (0,1), the keys `y`, `h` yank backward: the register
correctly receives "a" (the normalized half-open range [0,1)) and the
buffer is untouched, but the cursor is put back at the original position
(0,1), not at the normalized range start (0,0) - `_apply_operator` assigns
the unswapped `start_pos`. -/
theorem C6_counterexample_backward_yank_cursor :
    (run_keys exAB1 ["y", "h"]).yank_register = ['a'] ∧
    (run_keys exAB1 ["y", "h"]).lines = [['a', 'b']] ∧
    (run_keys exAB1 ["y", "h"]).cursor = (0, 1) ∧
    (run_keys exAB1 ["y", "h"]).cursor ≠ (0, 0) := by
  decide

/-- C7 counterexample: the claim says that when the till step lands the
cursor back at its original position, the position is restored and the
operation reports failure.  On "ab" with the cursor at (0,0),
`search_till_forward 'b'` finds 'b' at column 1, steps back to column 0 -
the original position - and still reports success, recording ("t", "b")
as the last search: the guard compares the position after the find, which
a successful find always moves, so the failure path cannot fire. -/
theorem C7_counterexample_zero_width_till :
    (search_till_forward exAB "b").2 = true ∧
    (search_till_forward exAB "b").1.cursor = exAB.cursor ∧
    (search_till_forward exAB "b").1.last_f_search = some ("t", "b") := by
  decide

/-- C8 counterexample: the claim says `dd`, `yy`, `p` restores the
originally deleted line's text adjacent to the cursor.  On "aaa" / "bbb"
with the cursor on the first line, `dd` deletes "aaa" into the register,
but `yy` then overwrites the register with the new current line "bbb", and
`p` pastes "bbb": the final buffer is "bbb" / "bbb" and the deleted text
"aaa" appears nowhere. -/
theorem C8_counterexample_dd_yy_p :
    (run_keys exTwoLines ["d", "d"]).yank_register = ['a', 'a', 'a'] ∧
    (run_keys exTwoLines ["d", "d", "y", "y", "p"]).lines
      = [['b', 'b', 'b'], ['b', 'b', 'b']] ∧
    ¬ ['a', 'a', 'a'] ∈ (run_keys exTwoLines ["d", "d", "y", "y", "p"]).lines := by
  decide

/-- C9: with an empty register, both paste operations return with the
entire engine state - buffer, cursor, register, mode, everything -
unchanged. -/
theorem C9_paste_empty_register_noop (s : EditorState) (h : s.yank_register = []) :
    edit_paste_after s = s ∧ edit_paste_before s = s := by
  constructor
  · unfold edit_paste_after
    simp [h]
  · unfold edit_paste_before
    simp [h]

/-- Witness for C9 at a concrete state with an empty register. -/
theorem C9_paste_empty_register_noop_witness :
    edit_paste_after exHello = exHello ∧ edit_paste_before exHello = exHello :=
  C9_paste_empty_register_noop exHello rfl

/-- C6 amended: a yank completed by a same-row motion that moved the
cursor normalizes the range so start ≤ end column-wise, stores exactly the
half-open slice [start, end) of the line in the register, leaves the
buffer untouched - but restores the cursor to the motion's starting
position (the position before the motion ran), which coincides with the
normalized range start only for forward motions. -/
theorem C6_yank_same_row (s : EditorState) (motion : EditorState → EditorState)
    (count : Nat) (r c0 c1 : Nat)
    (hc : s.cursor = (r, c0))
    (hm : motion^[count] s = { s with cursor := (r, c1) })
    (hne : c0 ≠ c1) :
    execute_operator_motion s "y" motion count =
      ({ s with
          yank_register := ((getLine s r).drop (min c0 c1)).take (max c0 c1 - min c0 c1),
          cursor := (r, c0) }, true) := by
  unfold execute_operator_motion
  rw [hm, hc]
  have hpair : ((r, c0) : Pos) ≠ ({ s with cursor := (r, c1) } : EditorState).cursor := by
    simp [Prod.ext_iff, hne]
  rw [if_neg hpair]
  unfold apply_operator
  rcases Nat.lt_or_ge c1 c0 with h | h
  · have h1 : min c0 c1 = c1 := Nat.min_eq_right (Nat.le_of_lt h)
    have h2 : max c0 c1 = c0 := Nat.max_eq_left (Nat.le_of_lt h)
    simp [getLine, h, h1, h2]
  · have hlt : c0 < c1 := Nat.lt_of_le_of_ne h hne
    have h1 : min c0 c1 = c0 := Nat.min_eq_left (Nat.le_of_lt hlt)
    have h2 : max c0 c1 = c1 := Nat.max_eq_right (Nat.le_of_lt hlt)
    simp [getLine, Nat.not_lt.mpr h, h1, h2]

/-- Witness for C6 amended: `y` with two `l` steps on "hello" yanks "he"
and puts the cursor back at the start. -/
theorem C6_yank_same_row_witness :
    execute_operator_motion exHello "y" nav_right 2 =
      ({ exHello with
          yank_register := ((getLine exHello 0).drop (min 0 2)).take (max 0 2 - min 0 2),
          cursor := (0, 0) }, true) :=
  C6_yank_same_row exHello nav_right 2 0 0 2 rfl (by decide) (by decide)

/-- C7 amended: `tillForward` performs the find and then steps the cursor
one column back (`tillBackward` one clamped column forward), recording the
till search; the restore-and-fail guard compares the cursor position after
the find with the original one, and a find that succeeds has always moved
the cursor, so the till reports success whenever the find does - even
when the step lands the cursor back on its original column. -/
theorem C7_till_step_semantics :
    (∀ (s : EditorState) (char : String) (r c idx : Nat),
      s.cursor = (r, c) →
      search_char_forward s char
        = ({ s with cursor := (r, idx), last_f_search := some ("f", char) }, true) →
      c < idx →
      search_till_forward s char
        = ({ s with cursor := (r, idx - 1), last_f_search := some ("t", char) }, true)) ∧
    (∀ (s : EditorState) (char : String) (r c idx : Nat),
      s.cursor = (r, c) →
      search_char_backward s char
        = ({ s with cursor := (r, idx), last_f_search := some ("F", char) }, true) →
      idx < c →
      search_till_backward s char
        = ({ s with cursor := (r, min (idx + 1) (getLine s r).length), last_f_search := some ("T", char) }, true)) := by
  constructor
  · intro s char r c idx hc hfind hlt
    unfold search_till_forward
    rw [hfind, hc]
    simp [action_cursor_left, hlt]
  · intro s char r c idx hc hfind hlt
    unfold search_till_backward
    rw [hfind, hc]
    simp [action_cursor_right, getLine, hlt]

/-- Witness for C7 amended: `t` towards the 'b' of "ab" from column 0
reports success with the cursor back at column 0. -/
theorem C7_till_step_semantics_witness :
    search_till_forward exAB "b"
      = ({ exAB with cursor := (0, 0), last_f_search := some ("t", "b") }, true) := by
  have h := C7_till_step_semantics.1 exAB "b" 0 0 1 rfl (by decide) (by decide)
  exact h

/-- Pressing `l` in Visual mode `k` times from a collapsed selection at
(r, c) moves the cursor to column c + k and keeps the anchored selection
with inclusive end c + k + 1, while the cursor stays inside the line. -/
theorem visual_right_iter (s : EditorState) (r c : Nat)
    (hmode : s.vim_mode = VimMode.VISUAL)
    (hc : s.cursor = (r, c)) (hs1 : s.selStart = (r, c)) (hs2 : s.selEnd = (r, c)) :
    ∀ k, 1 ≤ k → c + k < (getLine s r).length →
      run_keys s (List.replicate k "l")
        = { s with cursor := (r, c + k), selStart := (r, c), selEnd := (r, c + k + 1) } := by
  intro k
  induction k with
  | zero => intro h; exact absurd h (by omega)
  | succ k ih =>
    intro _ hlen
    have hlen1 : c + k + 1 < ((s.lines[r]?).getD []).length := by
      simpa [getLine, List.getD] using hlen
    rcases Nat.eq_zero_or_pos k with hk | hk
    · subst hk
      show on_key s "l" = _
      have h0 : c < ((s.lines[r]?).getD []).length := by omega
      have h1 : c + 1 < ((s.lines[r]?).getD []).length := by omega
      unfold on_key handle_visual_mode visual_right extend_selection make_inclusive_end
      simp [hmode, hc, hs1, hs2, getLine, List.getD, h0, h1]
    · have hlen' : c + k < ((s.lines[r]?).getD []).length := by omega
      have hrec := ih hk (by simpa [getLine, List.getD] using hlen')
      have hsplit : run_keys s (List.replicate (k + 1) "l")
          = on_key (run_keys s (List.replicate k "l")) "l" := by
        rw [List.replicate_succ']
        unfold run_keys
        rw [List.foldl_append]
        rfl
      have hadd : c + (k + 1) = c + k + 1 := by omega
      rw [hsplit, hrec, hadd]
      have h0 : c + k < ((s.lines[r]?).getD []).length := by omega
      have hne : ¬ c = c + k + 1 := by omega
      unfold on_key handle_visual_mode visual_right extend_selection make_inclusive_end
      simp [hmode, getLine, List.getD, h0, hlen1, hne]

/-- In Visual mode, `y` yanks the selection and returns to Command mode. -/
theorem on_key_y_visual (t : EditorState) (h : t.vim_mode = VimMode.VISUAL) :
    on_key t "y" = enter_command_mode (visual_yank t) := by
  unfold on_key handle_visual_mode
  simp [h]

/-- The host selection text of a same-row, forward selection is the
half-open slice of the line. -/
theorem selected_text_same_row (t : EditorState) (r a b : Nat)
    (h1 : t.selStart = (r, a)) (h2 : t.selEnd = (r, b)) (hab : a ≤ b) :
    selected_text t = ((getLine t r).drop a).take (b - a) := by
  unfold selected_text orderedSel posLe
  simp [h1, h2, hab]

/-- C5 amended: entering Visual mode at P = (r, c) and pressing `l` n ≥ 1
times extends the inclusive selection, and `y` then stores exactly n + 1
characters starting at P in the register; with no extension at all (n = 0)
the selection is still collapsed and `y` stores nothing (see the
counterexample). -/
theorem C5_visual_extend_yank (s : EditorState) (r c n : Nat)
    (hmode : s.vim_mode = VimMode.VISUAL)
    (hc : s.cursor = (r, c)) (hs1 : s.selStart = (r, c)) (hs2 : s.selEnd = (r, c))
    (hn : 1 ≤ n) (hlen : c + n < (getLine s r).length) :
    (run_keys s (List.replicate n "l" ++ ["y"])).yank_register
        = ((getLine s r).drop c).take (n + 1) ∧
    ((run_keys s (List.replicate n "l" ++ ["y"])).yank_register).length = n + 1 := by
  have hiter := visual_right_iter s r c hmode hc hs1 hs2 n hn hlen
  have hsplit : run_keys s (List.replicate n "l" ++ ["y"])
      = on_key (run_keys s (List.replicate n "l")) "y" := by
    unfold run_keys
    rw [List.foldl_append]
    rfl
  have hslice_len : (((getLine s r).drop c).take (n + 1)).length = n + 1 := by
    rw [List.length_take, List.length_drop]
    omega
  have hne : ((getLine s r).drop c).take (n + 1) ≠ [] := by
    intro hnil
    rw [hnil] at hslice_len
    simp at hslice_len
  have harith : c + n + 1 - c = n + 1 := by omega
  rw [hsplit, hiter]
  rw [on_key_y_visual _ (by simpa using hmode)]
  have hsel := selected_text_same_row
    { s with cursor := (r, c + n), selStart := (r, c), selEnd := (r, c + n + 1) }
    r c (c + n + 1) rfl rfl (by omega)
  rw [harith] at hsel
  have hgl : getLine { s with cursor := (r, c + n), selStart := (r, c), selEnd := (r, c + n + 1) } r = getLine s r := rfl
  rw [hgl] at hsel
  unfold visual_yank enter_command_mode
  simp [hsel, hne, hslice_len]

/-- Witness for C5 amended: `v`, `l`, `l`, `y` on "hello" stores the three
characters "hel". -/
theorem C5_visual_extend_yank_witness :
    (run_keys (on_key exHello "v") (List.replicate 2 "l" ++ ["y"])).yank_register
      = ((getLine (on_key exHello "v") 0).drop 0).take 3 ∧
    ((run_keys (on_key exHello "v") (List.replicate 2 "l" ++ ["y"])).yank_register).length = 3 :=
  C5_visual_extend_yank (on_key exHello "v") 0 0 2 (by decide) (by decide) (by decide)
    (by decide) (by decide) (by decide)

/-- Dropping leading newlines of a newline-free text is the identity. -/
theorem dropWhile_nl_eq_self (l : List Char) (h : '\n' ∉ l) :
    l.dropWhile (fun c => c = '\n') = l := by
  cases l with
  | nil => rfl
  | cons a t =>
    have ha : ¬(a = '\n') := by
      intro hh
      exact h (by simp [hh])
    simp [List.dropWhile_cons, ha]

/-- Appending one newline to a newline-free text and stripping trailing
newlines gives the text back. -/
theorem rstripNL_concat (l : List Char) (h : '\n' ∉ l) :
    rstripNL (l ++ ['\n']) = l := by
  unfold rstripNL
  rw [List.reverse_append]
  simp only [List.reverse_cons, List.reverse_nil, List.nil_append, List.singleton_append,
    List.dropWhile_cons]
  simp [dropWhile_nl_eq_self l.reverse (by simpa using h)]

/-- A text with one newline appended ends with a newline. -/
theorem endsWithNL_concat (l : List Char) : endsWithNL (l ++ ['\n']) = true := by
  simp [endsWithNL, List.getLast?_concat]

/-- A newline-free text splits into the single segment it is. -/
theorem splitLines_no_nl (l : List Char) (h : '\n' ∉ l) : splitLines l = [l] := by
  induction l with
  | nil => rfl
  | cons a t ih =>
    have ha : ¬(a = '\n') := by
      intro hh
      exact h (by simp [hh])
    have ht : '\n' ∉ t := fun hm => h (List.mem_cons_of_mem a hm)
    simp [splitLines, ha, ih ht]

/-- In Command mode with nothing pending, `d` enters operator-pending. -/
theorem dispatch_key_d (t : EditorState) (h1 : t.vim_mode = VimMode.COMMAND)
    (h2 : t.op_operator = none) (h3 : t.pending_command = none) :
    on_key t "d" = count_clear (op_set_operator t "d" (count_get_count t 0)) := by
  unfold on_key handle_command_mode op_is_pending command_dispatch
  simp [h1, h2, h3, keyIsDigit]

/-- In Command mode with nothing pending, `y` enters operator-pending. -/
theorem dispatch_key_y (t : EditorState) (h1 : t.vim_mode = VimMode.COMMAND)
    (h2 : t.op_operator = none) (h3 : t.pending_command = none) :
    on_key t "y" = count_clear (op_set_operator t "y" (count_get_count t 0)) := by
  unfold on_key handle_command_mode op_is_pending command_dispatch
  simp [h1, h2, h3, keyIsDigit]

/-- In Command mode with nothing pending, `p` pastes after. -/
theorem dispatch_key_p (t : EditorState) (h1 : t.vim_mode = VimMode.COMMAND)
    (h2 : t.op_operator = none) (h3 : t.pending_command = none) :
    on_key t "p" = edit_paste_after t := by
  unfold on_key handle_command_mode op_is_pending command_dispatch
  simp [h1, h2, h3, keyIsDigit]

/-- With operator `d` pending, a second `d` runs the linewise delete and
clears the pending state. -/
theorem dispatch_second_d (t : EditorState) (h1 : t.vim_mode = VimMode.COMMAND)
    (h2 : t.op_operator = some "d") :
    on_key t "d"
      = op_clear (edit_delete_line^[get_total_count t.op_count t.op_motion_count] t) := by
  unfold on_key handle_command_mode op_is_pending handle_operator_motion execute_line_operator
  simp [h1, h2, keyIsDigit]

/-- With operator `y` pending, a second `y` runs the linewise yank and
clears the pending state. -/
theorem dispatch_second_y (t : EditorState) (h1 : t.vim_mode = VimMode.COMMAND)
    (h2 : t.op_operator = some "y") :
    on_key t "y"
      = op_clear (execute_line_operator t "y" (get_total_count t.op_count t.op_motion_count)).1 := by
  have hsucc : (execute_line_operator t "y" (get_total_count t.op_count t.op_motion_count)).2
      = true := by
    simp [execute_line_operator]
  unfold on_key handle_command_mode op_is_pending handle_operator_motion
  simp [h1, h2, keyIsDigit, hsucc]

/-- A linewise yank of one line from column 0 of an existing row stores
that line plus a trailing newline. -/
theorem execute_line_y_one (t : EditorState) (r2 : Nat)
    (hc : t.cursor = (r2, 0)) (hr : r2 < t.lines.length) :
    execute_line_operator t "y" 1 = ({ t with yank_register := getLine t r2 ++ ['\n'] }, true) := by
  unfold execute_line_operator lineCount
  simp [List.range_succ, hc, hr]

/-- The full effect of `dd` from a clean Command-mode state: the cursor's
line goes to the register and is removed, the cursor lands at column 0 of
the clamped row, and the pending state stays clean. -/
theorem dd_effect (s : EditorState) (r c : Nat)
    (h1 : s.vim_mode = VimMode.COMMAND) (h2 : s.op_operator = none)
    (h3 : s.pending_command = none) (h4 : s.count_count = 0) (h5 : s.op_motion_count = 0)
    (hc : s.cursor = (r, c)) :
    run_keys s ["d", "d"]
      = { s with
          lines := if s.lines.eraseIdx r = [] then [[]] else s.lines.eraseIdx r,
          cursor := (min r ((if s.lines.eraseIdx r = [] then [[]] else s.lines.eraseIdx r).length - 1), 0),
          yank_register := getLine s r,
          op_operator := none, op_count := 0, op_motion_count := 0,
          count_count := 0, count_str := [] } := by
  have hsplit : run_keys s ["d", "d"] = on_key (on_key s "d") "d" := rfl
  rw [hsplit, dispatch_key_d s h1 h2 h3]
  have hg : count_get_count s 0 = 0 := by simp [count_get_count, h4]
  rw [hg]
  have ht : count_clear (op_set_operator s "d" 0)
      = { s with op_operator := some "d", op_count := 0, count_count := 0, count_str := [] } := rfl
  rw [ht]
  rw [dispatch_second_d _ (by simpa using h1) (by simp)]
  simp only [h5]
  have htc : get_total_count 0 0 = 1 := rfl
  simp only [htc, Function.iterate_one]
  unfold edit_delete_line action_delete_line op_clear getLine
  simp [hc]

/-- The full effect of `yy` then `p` from a clean Command-mode state with
the cursor at column 0 of row r2: the current line goes to the register
with a trailing newline and is pasted again below itself, the cursor
landing at the end of the duplicate. -/
theorem yy_p_effect (t : EditorState) (r2 : Nat)
    (h1 : t.vim_mode = VimMode.COMMAND) (h2 : t.op_operator = none)
    (h3 : t.pending_command = none) (h4 : t.count_count = 0) (h5 : t.op_motion_count = 0)
    (hc : t.cursor = (r2, 0)) (hr : r2 < t.lines.length)
    (hnl : '\n' ∉ getLine t r2) :
    run_keys t ["y", "y", "p"]
      = { t with
          lines := t.lines.take r2 ++ [getLine t r2, getLine t r2] ++ t.lines.drop (r2 + 1),
          cursor := (r2 + 1, (getLine t r2).length),
          yank_register := getLine t r2 ++ ['\n'],
          op_operator := none, op_count := 0, op_motion_count := 0,
          count_count := 0, count_str := [] } := by
  have hsplit : run_keys t ["y", "y", "p"] = on_key (on_key (on_key t "y") "y") "p" := rfl
  rw [hsplit, dispatch_key_y t h1 h2 h3]
  have hg : count_get_count t 0 = 0 := by simp [count_get_count, h4]
  rw [hg]
  rw [dispatch_second_y (count_clear (op_set_operator t "y" 0))
    (by simpa [count_clear, op_set_operator] using h1)
    (by simp [count_clear, op_set_operator])]
  have e1 : get_total_count (count_clear (op_set_operator t "y" 0)).op_count
      (count_clear (op_set_operator t "y" 0)).op_motion_count = 1 := by
    simp [count_clear, op_set_operator, get_total_count, h5]
  rw [e1]
  rw [execute_line_y_one (count_clear (op_set_operator t "y" 0)) r2
    (by simpa [count_clear, op_set_operator] using hc)
    (by simpa [count_clear, op_set_operator] using hr)]
  rw [dispatch_key_p _
    (by simpa [op_clear, count_clear, op_set_operator] using h1)
    (by simp [op_clear])
    (by simpa [op_clear, count_clear, op_set_operator] using h3)]
  have hnlB : '\n' ∉ (t.lines[r2]?).getD [] := by
    simpa [getLine, List.getD] using hnl
  have e_strip : rstripNL ((t.lines[r2]?).getD [] ++ ['\n']) = (t.lines[r2]?).getD [] :=
    rstripNL_concat _ hnlB
  have e_split : splitLines ((t.lines[r2]?).getD []) = [(t.lines[r2]?).getD []] :=
    splitLines_no_nl _ hnlB
  unfold edit_paste_after action_cursor_line_end insertText
  simp [op_clear, count_clear, op_set_operator, getLine, List.getD, hc,
    endsWithNL_concat, e_strip, e_split, splitLines]

/-- C8 amended: from a clean Command-mode state, `dd` stores the deleted
line in the register, but `yy` then overwrites the register with the line
at the cursor after the deletion (plus a trailing newline) and `p` pastes
that post-deletion line on a new line adjacent to the cursor: the round
trip through the register applies to the post-deletion current line, not
to the originally deleted one (see the counterexample). -/
theorem C8_dd_yy_p_round_trip (s : EditorState) (r c : Nat)
    (h1 : s.vim_mode = VimMode.COMMAND) (h2 : s.op_operator = none)
    (h3 : s.pending_command = none) (h4 : s.count_count = 0) (h5 : s.op_motion_count = 0)
    (hc : s.cursor = (r, c)) (hr : r < s.lines.length)
    (hnl : ∀ l ∈ s.lines, '\n' ∉ l) :
    (run_keys s ["d", "d"]).yank_register = getLine s r ∧
    (run_keys s ["d", "d", "y", "y", "p"]).yank_register
        = getLine (run_keys s ["d", "d"]) (run_keys s ["d", "d"]).cursor.1 ++ ['\n'] ∧
    (run_keys s ["d", "d", "y", "y", "p"]).cursor.1 = (run_keys s ["d", "d"]).cursor.1 + 1 ∧
    getLine (run_keys s ["d", "d", "y", "y", "p"]) (run_keys s ["d", "d", "y", "y", "p"]).cursor.1
        = getLine (run_keys s ["d", "d"]) (run_keys s ["d", "d"]).cursor.1 ∧
    (run_keys s ["d", "d", "y", "y", "p"]).lines
        = (run_keys s ["d", "d"]).lines.take ((run_keys s ["d", "d"]).cursor.1 + 1)
          ++ [getLine (run_keys s ["d", "d"]) (run_keys s ["d", "d"]).cursor.1]
          ++ (run_keys s ["d", "d"]).lines.drop ((run_keys s ["d", "d"]).cursor.1 + 1) := by
  have hdd := dd_effect s r c h1 h2 h3 h4 h5 hc
  have hcompose : run_keys s ["d", "d", "y", "y", "p"]
      = run_keys (run_keys s ["d", "d"]) ["y", "y", "p"] := rfl
  have hpos : 0 < (if s.lines.eraseIdx r = [] then [[]] else s.lines.eraseIdx r).length := by
    by_cases he : s.lines.eraseIdx r = []
    · simp [he]
    · simp [he, List.length_pos.mpr he]
  have hmem0 : ∀ l ∈ (if s.lines.eraseIdx r = [] then [[]] else s.lines.eraseIdx r), '\n' ∉ l := by
    intro l hl
    by_cases he : s.lines.eraseIdx r = []
    · rw [if_pos he] at hl
      simp at hl
      simp [hl]
    · rw [if_neg he] at hl
      exact hnl l ((List.eraseIdx_sublist s.lines r).subset hl)
  generalize hG : (if s.lines.eraseIdx r = [] then [[]] else s.lines.eraseIdx r) = ls2
    at hdd hpos hmem0
  generalize hR : min r (ls2.length - 1) = r2 at hdd
  have hr2 : r2 < ls2.length := by omega
  have hgetmem : ls2.getD r2 [] ∈ ls2 := by
    rw [List.getD_eq_getElem?_getD, List.getElem?_eq_getElem hr2]
    exact List.getElem_mem hr2
  have hT2 := yy_p_effect (run_keys s ["d", "d"]) r2
    (by rw [hdd]; simpa using h1)
    (by rw [hdd])
    (by rw [hdd]; simpa using h3)
    (by rw [hdd])
    (by rw [hdd])
    (by rw [hdd])
    (by rw [hdd]; simpa using hr2)
    (by rw [hdd]; simpa [getLine] using hmem0 _ hgetmem)
  rw [hcompose, hT2, hdd]
  have hlen_take : (ls2.take r2).length = r2 := by
    rw [List.length_take]
    omega
  refine ⟨rfl, by simp [getLine], by simp, ?_, ?_⟩
  · simp only [getLine, List.getD_eq_getElem?_getD, List.append_assoc, List.cons_append,
      List.nil_append]
    rw [List.getElem?_append_right (by rw [hlen_take]; omega)]
    rw [hlen_take]
    have h11 : r2 + 1 - r2 = 1 := by omega
    rw [h11]
    simp
  · have htake : ls2.take (r2 + 1) = ls2.take r2 ++ [(ls2[r2]?).getD []] := by
      rw [List.take_succ, List.getElem?_eq_getElem hr2]
      simp [List.getElem?_eq_getElem hr2]
    simp [getLine, List.getD_eq_getElem?_getD, htake, List.append_assoc]

/-- Witness for C8 amended at the "aaa"/"bbb" buffer. -/
theorem C8_dd_yy_p_round_trip_witness :
    (run_keys exTwoLines ["d", "d"]).yank_register = getLine exTwoLines 0 ∧
    (run_keys exTwoLines ["d", "d", "y", "y", "p"]).yank_register
        = getLine (run_keys exTwoLines ["d", "d"]) (run_keys exTwoLines ["d", "d"]).cursor.1
          ++ ['\n'] ∧
    (run_keys exTwoLines ["d", "d", "y", "y", "p"]).cursor.1
        = (run_keys exTwoLines ["d", "d"]).cursor.1 + 1 ∧
    getLine (run_keys exTwoLines ["d", "d", "y", "y", "p"])
        (run_keys exTwoLines ["d", "d", "y", "y", "p"]).cursor.1
        = getLine (run_keys exTwoLines ["d", "d"]) (run_keys exTwoLines ["d", "d"]).cursor.1 ∧
    (run_keys exTwoLines ["d", "d", "y", "y", "p"]).lines
        = (run_keys exTwoLines ["d", "d"]).lines.take
            ((run_keys exTwoLines ["d", "d"]).cursor.1 + 1)
          ++ [getLine (run_keys exTwoLines ["d", "d"]) (run_keys exTwoLines ["d", "d"]).cursor.1]
          ++ (run_keys exTwoLines ["d", "d"]).lines.drop
            ((run_keys exTwoLines ["d", "d"]).cursor.1 + 1) :=
  C8_dd_yy_p_round_trip exTwoLines 0 0 (by decide) (by decide) (by decide) (by decide)
    (by decide) (by decide) (by decide) (by decide)

/-- Splitting a text on newlines always yields at least one segment. -/
theorem splitLines_ne_nil (t : List Char) : splitLines t ≠ [] := by
  cases t with
  | nil => simp [splitLines]
  | cons c rest =>
    unfold splitLines
    by_cases hcc : c = '\n' <;> simp [hcc]

/-- A trailing newline contributes exactly one trailing empty segment. -/
theorem splitLines_append_nl (l : List Char) :
    splitLines (l ++ ['\n']) = splitLines l ++ [[]] := by
  induction l with
  | nil => rfl
  | cons c rest ih =>
    obtain ⟨a, t, hS⟩ : ∃ a t, splitLines rest = a :: t := by
      cases h : splitLines rest with
      | nil => exact absurd h (splitLines_ne_nil rest)
      | cons a t => exact ⟨a, t, rfl⟩
    show splitLines (c :: (rest ++ ['\n'])) = _
    unfold splitLines
    by_cases hcc : c = '\n' <;> simp [hcc, ih, hS, splitLines]

/-- `dropLast` and `getLastD` reassemble a non-empty list. -/
theorem dropLast_append_getLastD (l : List (List Char)) (h : l ≠ []) :
    l.dropLast ++ [l.getLastD []] = l := by
  rw [List.getLastD_eq_getLast?, List.getLast?_eq_getLast l h]
  exact List.dropLast_append_getLast h

/-- Moving the cursor up never changes the buffer lines. -/
theorem action_cursor_up_lines (t : EditorState) :
    (action_cursor_up t).lines = t.lines := by
  unfold action_cursor_up
  split <;> rfl

/-- A non-empty register without any newline does not end with one. -/
theorem endsWithNL_false_of_no_nl (reg : List Char) (h0 : reg ≠ []) (h1 : '\n' ∉ reg) :
    endsWithNL reg = false := by
  unfold endsWithNL
  rw [List.getLast?_eq_getLast reg h0]
  simp
  intro hlast
  exact absurd (hlast ▸ List.getLast_mem h0) h1

/-- C10: the register stores no linewise flag; both pastes decide the
linewise/charwise question solely by whether the register text ends with a
newline.  Paste-after with a trailing newline inserts the text, stripped
of trailing newlines, on new line(s) below the current line; without one
it moves right one clamped column and inserts in place.  Paste-before
applies the same trailing-newline test, inserting the register's lines
above the current line or the text at the cursor. -/
theorem C10_paste_linewise_test (s : EditorState) (r c : Nat)
    (hc : s.cursor = (r, c)) (hr : r < s.lines.length)
    (hne : s.yank_register ≠ []) :
    (endsWithNL s.yank_register = true →
      (edit_paste_after s).lines
        = s.lines.take (r + 1) ++ splitLines (rstripNL s.yank_register)
          ++ s.lines.drop (r + 1)) ∧
    (endsWithNL s.yank_register = false → '\n' ∉ s.yank_register →
      edit_paste_after s
        = { s with lines := s.lines.set r ((getLine s r).take (min (c + 1) (getLine s r).length) ++ s.yank_register ++ (getLine s r).drop (min (c + 1) (getLine s r).length)), cursor := (r, min (c + 1) (getLine s r).length + s.yank_register.length) }) ∧
    (endsWithNL s.yank_register = true →
      (edit_paste_before s).lines
        = s.lines.take r ++ (splitLines s.yank_register).dropLast ++ s.lines.drop r) ∧
    ('\n' ∉ s.yank_register →
      edit_paste_before s
        = { s with lines := s.lines.set r ((getLine s r).take c ++ s.yank_register ++ (getLine s r).drop c), cursor := (r, c + s.yank_register.length) }) := by
  have htake : s.lines.take (r + 1) = s.lines.take r ++ [(s.lines[r]?).getD []] := by
    rw [List.take_succ, List.getElem?_eq_getElem hr]
    simp [List.getElem?_eq_getElem hr]
  have hdropr : s.lines.drop r = (s.lines[r]?).getD [] :: s.lines.drop (r + 1) := by
    rw [List.drop_eq_getElem_cons hr, List.getElem?_eq_getElem hr]
    simp
  refine ⟨?_, ?_, ?_, ?_⟩
  · intro hA
    obtain ⟨a, t, hS⟩ : ∃ a t, splitLines (rstripNL s.yank_register) = a :: t := by
      cases h : splitLines (rstripNL s.yank_register) with
      | nil => exact absurd h (splitLines_ne_nil _)
      | cons a t => exact ⟨a, t, rfl⟩
    have hsegs : splitLines ('\n' :: rstripNL s.yank_register) = [] :: a :: t := by
      unfold splitLines
      simp [hS]
    unfold edit_paste_after
    rw [if_neg hne, if_pos hA]
    have hline_end : action_cursor_line_end s = { s with cursor := (r, (getLine s r).length) } := by
      unfold action_cursor_line_end
      rw [hc]
    rw [hline_end]
    unfold insertText
    have hfix : (a :: t).dropLast ++ ((a :: t).getLast?.getD []) :: List.drop (r + 1) s.lines
        = a :: (t ++ List.drop (r + 1) s.lines) := by
      have h2 := dropLast_append_getLastD (a :: t) (List.cons_ne_nil a t)
      rw [List.getLastD_eq_getLast?] at h2
      calc (a :: t).dropLast ++ ((a :: t).getLast?.getD []) :: List.drop (r + 1) s.lines
          = ((a :: t).dropLast ++ [(a :: t).getLast?.getD []]) ++ List.drop (r + 1) s.lines := by
            simp [List.append_assoc]
        _ = (a :: t) ++ List.drop (r + 1) s.lines := by rw [h2]
        _ = a :: (t ++ List.drop (r + 1) s.lines) := rfl
    simp [hsegs, getLine, List.getD_eq_getElem?_getD, List.take_length, List.drop_length,
      htake, List.append_assoc, hS, List.getLastD_eq_getLast?, hfix]
  · intro hB1 hB2
    unfold edit_paste_after
    rw [if_neg hne, if_neg (by simp [hB1])]
    have hright : action_cursor_right s
        = { s with cursor := (r, min (c + 1) (getLine s r).length) } := by
      unfold action_cursor_right
      rw [hc]
    rw [hright]
    unfold insertText
    simp [splitLines_no_nl _ hB2, getLine]
  · intro hCline
    have hgl : s.yank_register.getLast hne = '\n' := by
      have h1 := List.getLast?_eq_getLast s.yank_register hne
      unfold endsWithNL at hCline
      rw [h1] at hCline
      simpa using hCline
    have hdecomp : s.yank_register.dropLast ++ ['\n'] = s.yank_register := by
      rw [← hgl]
      exact List.dropLast_append_getLast hne
    obtain ⟨a, t, hS⟩ : ∃ a t, splitLines s.yank_register.dropLast = a :: t := by
      cases h : splitLines s.yank_register.dropLast with
      | nil => exact absurd h (splitLines_ne_nil _)
      | cons a t => exact ⟨a, t, rfl⟩
    have hsegs : splitLines s.yank_register = a :: (t ++ [[]]) := by
      rw [← hdecomp, splitLines_append_nl, hS]
      rfl
    unfold edit_paste_before
    rw [if_neg hne, if_pos hCline]
    rw [action_cursor_up_lines]
    have hstart : action_cursor_line_start s = { s with cursor := (r, 0) } := by
      unfold action_cursor_line_start
      rw [hc]
    rw [hstart]
    unfold insertText
    cases t with
    | nil =>
      simp [hsegs, getLine, List.getD_eq_getElem?_getD, hdropr]
    | cons b t2 =>
      simp [hsegs, getLine, List.getD_eq_getElem?_getD, hdropr, List.dropLast_concat,
        List.getLastD_concat, List.append_assoc]
      rw [show (b :: (t2 ++ [[]])) = (b :: t2) ++ [([] : List Char)] from rfl,
        List.getLast?_concat]
      rfl
  · intro hD
    have hD1 : endsWithNL s.yank_register = false := endsWithNL_false_of_no_nl _ hne hD
    unfold edit_paste_before
    rw [if_neg hne, if_neg (by simp [hD1])]
    unfold insertText
    rw [hc]
    simp [splitLines_no_nl _ hD, getLine]

/-- Witness for C10: pasting the linewise register "Z\n" after on "ab"
inserts the stripped line below; pasting the charwise register "Z" before
inserts at the cursor. -/
theorem C10_paste_linewise_test_witness :
    (edit_paste_after exRegLine).lines
        = exRegLine.lines.take 1 ++ splitLines (rstripNL exRegLine.yank_register)
          ++ exRegLine.lines.drop 1 ∧
    edit_paste_before exRegChar
        = { exRegChar with lines := exRegChar.lines.set 0 ((getLine exRegChar 0).take 0 ++ exRegChar.yank_register ++ (getLine exRegChar 0).drop 0), cursor := (0, 0 + exRegChar.yank_register.length) } :=
  ⟨(C10_paste_linewise_test exRegLine 0 0 rfl (by decide) (by decide)).1 (by decide),
   (C10_paste_linewise_test exRegChar 0 0 rfl (by decide) (by decide)).2.2.2 (by decide)⟩

end VimKeys
